import Mathlib

/-!
Verification development for the alchemy-go client library.

Shallow embedding of the request-execution core: the error classifiers
(errors.IsRetryable, (*HTTPError).IsRetryable, (*JSONRPCError).IsRetryable),
the retry loop ((*Retrier).Do specialised to the closure passed by
(*HTTPClient).Do), the JSON-RPC single-call and batch-call paths, the
backoff delay computation ((*Retrier).calculateDelay, float64 arithmetic
modelled over the rationals with the random sample passed as a parameter),
and the cursor-based pagination iterator (AssetTransfersIterator).
Context cancellation never fires in the modelled runs (ctx.Err() = nil
throughout), and network effects are modelled by passing the server's
behaviour as a function and counting how many times it is invoked.
-/

namespace Alchemy

/-- Error values that flow through the client; one constructor per concrete
Go error shape relevant to classification: *errors.HTTPError (carrying its
status code), the ErrRateLimited sentinel, the two context sentinels,
*errors.JSONRPCError (carrying its code), and anything else. -/
inductive AErr where
  | httpError (status : Nat) : AErr
  | rateLimited : AErr
  | ctxCanceled : AErr
  | ctxDeadline : AErr
  | rpcError (code : Int) : AErr
  | otherErr : AErr
deriving DecidableEq

/-- (*HTTPError).IsRetryable from src/errors/http.go: 429, then 5xx, then 408. -/
def httpErrorIsRetryable (status : Nat) : Bool :=
  if status = 429 then true
  else if 500 ≤ status ∧ status < 600 then true
  else if status = 408 then true
  else false

/-- errors.IsRetryable from src/errors/errors.go: errors.As to *HTTPError first,
then the ErrRateLimited sentinel, then the context sentinels (not retryable),
default false.  A *JSONRPCError matches none of the probes and falls through
to the default. -/
def isRetryable : AErr → Bool
  | .httpError s => httpErrorIsRetryable s
  | .rateLimited => true
  | .ctxCanceled => false
  | .ctxDeadline => false
  | _ => false

/-- JSON-RPC error-code constants from the errors package. -/
def internalErrorCode : Int := -32603

def serverErrorStart : Int := -32099

def serverErrorEnd : Int := -32000

/-- (*JSONRPCError).IsServerError: code within the reserved server range. -/
def jsonrpcIsServerError (code : Int) : Bool :=
  serverErrorStart ≤ code ∧ code ≤ serverErrorEnd

/-- (*JSONRPCError).IsRetryable: server-range codes and the internal-error code. -/
def jsonrpcErrorIsRetryable (code : Int) : Bool :=
  jsonrpcIsServerError code || code = internalErrorCode

/-- Outcome of one invocation of the composed middleware+transport handler
inside (*HTTPClient).Do: either an *http.Response (abstracted to its status
code) or a handler-level error. -/
inductive HandlerOut where
  | resp (status : Nat) : HandlerOut
  | err (e : AErr) : HandlerOut
deriving DecidableEq

/-- Error returned by the closure passed to retrier.Do: either wrapped in the
stopRetry marker or plain. -/
inductive RetErr where
  | stopRetry (e : AErr) : RetErr
  | plain (e : AErr) : RetErr
deriving DecidableEq

/-- The outer variables resp and lastErr captured by the closure in
(*HTTPClient).Do. -/
structure DoState where
  resp : Option Nat := none
  lastErr : Option AErr := none
deriving DecidableEq

/-- One invocation of the closure passed to retrier.Do by (*HTTPClient).Do:
run the handler; a handler error is returned plain when retryable and wrapped
in stopRetry otherwise; a response with status 429 or ≥ 500 becomes an
HTTPError returned as the attempt's error; any other response is success.
The handler is indexed by the attempt number so that per-attempt server
behaviour can be expressed. -/
def doStep (handler : Nat → HandlerOut) (attempt : Nat) (st : DoState) :
    Option RetErr × DoState :=
  match handler attempt with
  | .err e =>
    if isRetryable e then (some (.plain e), { st with lastErr := some e })
    else (some (.stopRetry e), { st with lastErr := some e })
  | .resp s =>
    if s = 429 ∨ 500 ≤ s then
      (some (.plain (.httpError s)), { resp := some s, lastErr := some (.httpError s) })
    else (none, { st with resp := some s })

/-- (*Retrier).Do from src/node/eth.go, specialised to the doStep closure and
with the loop counter reindexed: the Go loop runs attempt = 0..MaxRetries and
breaks without sleeping when attempt = MaxRetries, so here fuel stands for
MaxRetries - attempt and the break fires at fuel = 0.  Returns the final
error (none on success), the captured closure state, and the number of
attempts performed.  ctx.Err() is nil throughout (no cancellation). -/
def retrierGo (handler : Nat → HandlerOut) (fuel attempt : Nat) (st : DoState) :
    Option RetErr × DoState × Nat :=
  match doStep handler attempt st with
  | (none, st') => (none, st', attempt + 1)
  | (some (.stopRetry e), st') => (some (.stopRetry e), st', attempt + 1)
  | (some (.plain e), st') =>
    if isRetryable e then
      match fuel with
      | 0 => (some (.plain e), st', attempt + 1)
      | fuel' + 1 => retrierGo handler fuel' (attempt + 1) st'
    else (some (.plain e), st', attempt + 1)

/-- retrier.Do invoked by (*HTTPClient).Do: start at attempt 0 with fuel
MaxRetries and the fresh closure state. -/
def retrierDo (handler : Nat → HandlerOut) (maxRetries : Nat) :
    Option RetErr × DoState × Nat :=
  retrierGo handler maxRetries 0 {}

/-- (*HTTPClient).Do: run the retrier; on a stopRetry error unwrap it, on any
other error prefer lastErr, on success return the captured response status.
Second component counts handler invocations (network attempts). -/
def clientDo (handler : Nat → HandlerOut) (maxRetries : Nat) :
    Except AErr Nat × Nat :=
  match retrierDo handler maxRetries with
  | (none, st, n) => (Except.ok (st.resp.getD 0), n)
  | (some (.stopRetry e), _, n) => (Except.error e, n)
  | (some (.plain e), st, n) => (Except.error (st.lastErr.getD e), n)

/-- (*HTTPClient).Post after the Do call: any non-2xx status that survived the
retry loop is converted to an HTTPError. -/
def post (handler : Nat → HandlerOut) (maxRetries : Nat) :
    Except AErr Nat × Nat :=
  match clientDo handler maxRetries with
  | (Except.error e, n) => (Except.error e, n)
  | (Except.ok s, n) =>
    if s < 200 ∨ 300 ≤ s then (Except.error (.httpError s), n)
    else (Except.ok s, n)

/-- (*JSONRPCClient).Call: POST the envelope; if the HTTP exchange failed,
propagate; otherwise, if the parsed response envelope carries an error
object (envErr), fail with that protocol error; otherwise succeed.  The
response-body decode step is not needed by the properties below. -/
def rpcCall (handler : Nat → HandlerOut) (maxRetries : Nat) (envErr : Option Int) :
    Except AErr Unit × Nat :=
  match post handler maxRetries with
  | (Except.error e, n) => (Except.error e, n)
  | (Except.ok _, n) =>
    match envErr with
    | some c => (Except.error (.rpcError c), n)
    | none => (Except.ok (), n)

/-- (*Retrier).calculateDelay from src/node/eth.go with float64 arithmetic
modelled over ℚ; the uniform sample rand.Float64()*2-1 is passed in as u.
Exponential base delay, cap at MaxDelay, jitter applied only when
Jitter > 0, final clamp to ≥ 0. -/
def calculateDelay (initialDelay maxDelay multiplier jitter : ℚ) (attempt : Nat)
    (u : ℚ) : ℚ :=
  let base := initialDelay * multiplier ^ attempt
  let capped := if maxDelay < base then maxDelay else base
  let jittered := if 0 < jitter then capped + capped * jitter * u else capped
  if jittered < 0 then 0 else jittered

/-- A JSON-RPC error object as parsed from a response envelope
(errors.JSONRPCError, with the opaque data field dropped). -/
structure JSONRPCErrObj where
  code : Int
  message : String
deriving DecidableEq

/-- One parsed entry of a batch response (BatchCallResponse): the id, the raw
result payload (json.RawMessage, with "" standing for an empty or absent
payload, mirroring the len(resp.Result) > 0 test), and the optional error
object. -/
structure BatchCallResponse where
  id : Nat
  result : String := ""
  error : Option JSONRPCErrObj := none
deriving DecidableEq

/-- One entry of a batch request (BatchCall): the method, and the caller's
decode target.  A nil Result pointer is target = none; a non-nil pointer is
target = some dec where dec models json.Unmarshal of a raw payload into that
pointer's type (none on unmarshal failure). -/
structure BatchCallReq where
  method : String
  target : Option (String → Option String) := none

/-- Per-slot outcome errors of a batch call: the fmt.Errorf missing-response
error (carrying the 0-based slot), a protocol error from the envelope, or an
UNMARSHAL_ERROR wrap of a decode failure. -/
inductive BatchErrObj where
  | missingResponse (slot : Nat)
  | protocol (e : JSONRPCErrObj)
  | unmarshalErr
deriving DecidableEq

/-- BatchResult: the zero value has neither error nor result. -/
structure BatchResult where
  error : Option BatchErrObj := none
  result : Option String := none
deriving DecidableEq

/-- Lookup in the response map built by BatchCall.  The Go code inserts the
responses into a map in slice order, so a duplicated id is won by the last
occurrence; find? over the reversed list has exactly that semantics. -/
def responseMapLookup (rs : List BatchCallResponse) (i : Nat) :
    Option BatchCallResponse :=
  rs.reverse.find? (fun r => r.id == i)

/-- The body of the results loop of (*JSONRPCClient).BatchCall for input
position i: look up id i+1; absent means the missing-response error; an
error object means that protocol error; otherwise decode only when the
caller supplied a target and the payload is non-empty, leaving the slot's
zero value in every remaining case. -/
def processBatchSlot (rs : List BatchCallResponse) (i : Nat) (c : BatchCallReq) :
    BatchResult :=
  match responseMapLookup rs (i + 1) with
  | none => { error := some (.missingResponse i) }
  | some resp =>
    match resp.error with
    | some e => { error := some (.protocol e) }
    | none =>
      match c.target with
      | none => {}
      | some dec =>
        if resp.result = "" then {}
        else
          match dec resp.result with
          | none => { error := some .unmarshalErr }
          | some v => { result := some v }

/-- The results loop of BatchCall, carrying the 0-based position. -/
def batchResultsAux (rs : List BatchCallResponse) :
    Nat → List BatchCallReq → List BatchResult
  | _, [] => []
  | i, c :: cs => processBatchSlot rs i c :: batchResultsAux rs (i + 1) cs

/-- All slot results of a batch call, in input order. -/
def batchResults (calls : List BatchCallReq) (rs : List BatchCallResponse) :
    List BatchResult :=
  batchResultsAux rs 0 calls

/-- The request-building loop of BatchCall, keeping each entry's method and
its assigned id i+1. -/
def buildBatchRequestsAux : Nat → List BatchCallReq → List (String × Nat)
  | _, [] => []
  | i, c :: cs => (c.method, i + 1) :: buildBatchRequestsAux (i + 1) cs

/-- The batch request array built by BatchCall: sequential ids 1..N in input
order. -/
def buildBatchRequests (calls : List BatchCallReq) : List (String × Nat) :=
  buildBatchRequestsAux 0 calls

/-- (*JSONRPCClient).BatchCall: an empty input returns (nil, nil) before any
network activity; otherwise one POST happens, whose outcome postResult is
either a transport-level failure or the parsed response array.  The second
component counts POSTs performed. -/
def batchCall (calls : List BatchCallReq)
    (postResult : Except AErr (List BatchCallResponse)) :
    Except AErr (List BatchResult) × Nat :=
  match calls with
  | [] => (Except.ok [], 0)
  | _ =>
    match postResult with
    | Except.error e => (Except.error e, 1)
    | Except.ok rs => (Except.ok (batchResults calls rs), 1)

/-- A parsed alchemy_getAssetTransfers response (AssetTransfersResponse):
pagination key plus transfers, items abstracted to strings. -/
structure AssetTransfersResponse where
  pageKey : String := ""
  transfers : List String := []
deriving DecidableEq

/-- (*AssetTransfersResponse).HasMore: a non-empty page key. -/
def hasMore (r : AssetTransfersResponse) : Bool :=
  r.pageKey != ""

/-- The mutable state of an AssetTransfersIterator: the page-key cursor held
in its params copy, the current page, the in-page index, the done flag and
the sticky error.  A freshly constructed iterator is the default value. -/
structure AssetTransfersIterator where
  paramsPageKey : String := ""
  current : Option AssetTransfersResponse := none
  index : Nat := 0
  done : Bool := false
  err : Option AErr := none
deriving DecidableEq

/-- The part of (*AssetTransfersIterator).Next that runs once a current page
r is available: serve the next in-page item; otherwise finish when the page
has no further cursor; otherwise advance the cursor and fetch, treating an
empty fetched page as end of data.  The counter n carries fetches already
performed by this Next call. -/
def nextWithCurrent (fetch : String → Except AErr AssetTransfersResponse)
    (it : AssetTransfersIterator) (r : AssetTransfersResponse) (n : Nat) :
    Except AErr (Option String) × AssetTransfersIterator × Nat :=
  if h : it.index < r.transfers.length then
    (Except.ok (some (r.transfers.get ⟨it.index, h⟩)),
      { it with index := it.index + 1 }, n)
  else if hasMore r then
    let it' := { it with paramsPageKey := r.pageKey }
    match fetch r.pageKey with
    | Except.error e => (Except.error e, { it' with err := some e }, n + 1)
    | Except.ok r2 =>
      let it2 := { it' with current := some r2, index := 0 }
      match r2.transfers with
      | [] => (Except.ok none, { it2 with done := true }, n + 1)
      | x :: _ => (Except.ok (some x), { it2 with index := 1 }, n + 1)
  else
    (Except.ok none, { it with done := true }, n)

/-- (*AssetTransfersIterator).Next: a stored error is returned as is; a done
iterator yields the end marker; a missing first page is fetched first; then
the current-page logic runs.  The third component counts fetches performed
by this call. -/
def next (fetch : String → Except AErr AssetTransfersResponse)
    (it : AssetTransfersIterator) :
    Except AErr (Option String) × AssetTransfersIterator × Nat :=
  match it.err with
  | some e => (Except.error e, it, 0)
  | none =>
    if it.done then (Except.ok none, it, 0)
    else
      match it.current with
      | none =>
        match fetch it.paramsPageKey with
        | Except.error e => (Except.error e, { it with err := some e }, 1)
        | Except.ok r =>
          nextWithCurrent fetch { it with current := some r, index := 0 } r 1
      | some r => nextWithCurrent fetch it r 0

/-- (*AssetTransfersIterator).HasNext.  The method consults only the stored
state and never invokes the client, which the unused fetch argument and the
constant 0 fetch count make explicit. -/
def hasNext (_fetch : String → Except AErr AssetTransfersResponse)
    (it : AssetTransfersIterator) :
    Bool × AssetTransfersIterator × Nat :=
  if it.done ∨ it.err ≠ none then (false, it, 0)
  else
    match it.current with
    | some r =>
      if it.index < r.transfers.length then (true, it, 0)
      else (hasMore r, it, 0)
    | none => (true, it, 0)

/-- (*AssetTransfersIterator).Reset: clear page, index, done flag, error and
the params page-key cursor. -/
def reset (it : AssetTransfersIterator) : AssetTransfersIterator :=
  { it with
      current := none, index := 0, done := false, err := none, paramsPageKey := "" }

/-- (*AssetTransfersIterator).Collect, with fuel bounding the modelled number
of loop iterations (the Go loop is unbounded); none signals exhausted fuel.
Accumulates items until Next reports the end or an error, and counts all
fetches performed. -/
def collectGo (fetch : String → Except AErr AssetTransfersResponse) :
    Nat → AssetTransfersIterator → List String → Nat →
    Option (Except AErr (List String) × Nat)
  | 0, _, _, _ => none
  | fuel + 1, it, acc, n =>
    match next fetch it with
    | (Except.error e, _, k) => some (Except.error e, n + k)
    | (Except.ok none, _, k) => some (Except.ok acc, n + k)
    | (Except.ok (some x), it', k) => collectGo fetch fuel it' (acc ++ [x]) (n + k)

/-- Collect starting from a given iterator with empty accumulator. -/
def collect (fetch : String → Except AErr AssetTransfersResponse) (fuel : Nat)
    (it : AssetTransfersIterator) : Option (Except AErr (List String) × Nat) :=
  collectGo fetch fuel it [] 0

/-- Identity decoder: json.Unmarshal of a raw payload into a string target,
always succeeding. -/
def idDecode : String → Option String := fun s => some s

/-- The three-entry batch [A, B, C] of the worked example, every entry with a
decode target. -/
def exCalls : List BatchCallReq :=
  [{ method := "mA", target := some idDecode },
   { method := "mB", target := some idDecode },
   { method := "mC", target := some idDecode }]

/-- Server reply of the worked batch example: envelopes for ids 3 and 1 only,
out of order. -/
def exRs : List BatchCallResponse :=
  [{ id := 3, result := "rC" }, { id := 1, result := "rA" }]

/-- Two-page endpoint of the pagination example: the empty cursor yields
P1(["a","b"], next "k2"); cursor "k2" yields P2(["c"], next ""). -/
def exFetch : String → Except AErr AssetTransfersResponse := fun k =>
  if k = "" then Except.ok { pageKey := "k2", transfers := ["a", "b"] }
  else if k = "k2" then Except.ok { pageKey := "", transfers := ["c"] }
  else Except.error .otherErr

end Alchemy

namespace Alchemy

/-- httpErrorIsRetryable holds exactly on 408, 429 and the 5xx range. -/
theorem httpErrorIsRetryable_iff (s : Nat) :
    httpErrorIsRetryable s = true ↔ (s = 408 ∨ s = 429 ∨ (500 ≤ s ∧ s ≤ 599)) := by
  unfold httpErrorIsRetryable
  split_ifs with h1 h2 h3 <;> simp <;> omega

/-- A handler that always answers with a retry-triggering status drives the
retry loop through every attempt and leaves the status's HTTPError as the
last error. -/
theorem retrierGo_const_retry (s : Nat) (hs : s = 429 ∨ (500 ≤ s ∧ s < 600)) :
    ∀ fuel attempt st, retrierGo (fun _ => .resp s) fuel attempt st =
      (some (.plain (.httpError s)),
        { resp := some s, lastErr := some (.httpError s) }, attempt + fuel + 1) := by
  have hcond : s = 429 ∨ 500 ≤ s := by omega
  have hretry : isRetryable (AErr.httpError s) = true := by
    show httpErrorIsRetryable s = true
    rw [httpErrorIsRetryable_iff]
    omega
  intro fuel
  induction fuel with
  | zero =>
    intro attempt st
    simp [retrierGo, doStep, if_pos hcond, hretry]
  | succ n ih =>
    intro attempt st
    rw [retrierGo]
    simp only [doStep, if_pos hcond, hretry, if_pos]
    rw [ih]
    have harith : attempt + 1 + n + 1 = attempt + (n + 1) + 1 := by omega
    rw [harith]

/-- C2: a 503 response (as any 429/5xx status) is converted to an HTTPError
and retried through all maxRetries additional attempts, after which that
HTTPError surfaces; a 404 response (as any non-2xx status outside 429/5xx)
is never retried and surfaces as an HTTPError after a single attempt. -/
theorem C2_http_retry_policy :
    (∀ maxRetries s, s = 429 ∨ (500 ≤ s ∧ s < 600) →
      post (fun _ => .resp s) maxRetries =
        (Except.error (.httpError s), maxRetries + 1))
    ∧ (∀ maxRetries s, ¬ (200 ≤ s ∧ s < 300) → ¬ (s = 429 ∨ (500 ≤ s ∧ s < 600)) →
      post (fun _ => .resp s) maxRetries = (Except.error (.httpError s), 1)) := by
  constructor
  · intro maxRetries s hs
    simp [post, clientDo, retrierDo, retrierGo_const_retry s hs maxRetries 0 {}]
  · intro maxRetries s h2xx hnotRetry
    by_cases hlow : s = 429 ∨ 500 ≤ s
    · have hs600 : 600 ≤ s := by omega
      have hnr : isRetryable (AErr.httpError s) = false := by
        show httpErrorIsRetryable s = false
        cases h : httpErrorIsRetryable s
        · rfl
        · rw [httpErrorIsRetryable_iff] at h; omega
      simp [post, clientDo, retrierDo, retrierGo, doStep, if_pos hlow, hnr]
    · have hout : s < 200 ∨ 300 ≤ s := by omega
      simp [post, clientDo, retrierDo, retrierGo, doStep, if_neg hlow, if_pos hout]

/-- Witness for C2 at maxRetries = 3 with statuses 503 and 404. -/
theorem C2_http_retry_policy_witness :
    post (fun _ => .resp 503) 3 = (Except.error (.httpError 503), 4)
    ∧ post (fun _ => .resp 404) 3 = (Except.error (.httpError 404), 1) :=
  ⟨C2_http_retry_policy.1 3 503 (by decide),
   C2_http_retry_policy.2 3 404 (by decide) (by decide)⟩

/-- C4: the classifiers return retryable for exactly the claimed inputs:
errors.IsRetryable accepts an HTTP error iff its status is 408, 429 or 5xx,
accepts the rate-limit sentinel, and rejects cancellation, deadline and
unrecognised errors; (*JSONRPCError).IsRetryable accepts a protocol error
iff its code lies in [-32099, -32000] or equals -32603, rejecting -32602,
-32601 and -32700. -/
theorem C4_classifier_exact :
    (∀ s : Nat, isRetryable (.httpError s) = true ↔
      (s = 408 ∨ s = 429 ∨ (500 ≤ s ∧ s ≤ 599)))
    ∧ isRetryable .rateLimited = true
    ∧ isRetryable .ctxCanceled = false
    ∧ isRetryable .ctxDeadline = false
    ∧ isRetryable .otherErr = false
    ∧ (∀ c : Int, jsonrpcErrorIsRetryable c = true ↔
        ((-32099 ≤ c ∧ c ≤ -32000) ∨ c = -32603))
    ∧ jsonrpcErrorIsRetryable (-32602) = false
    ∧ jsonrpcErrorIsRetryable (-32601) = false
    ∧ jsonrpcErrorIsRetryable (-32700) = false := by
  refine ⟨httpErrorIsRetryable_iff, rfl, rfl, rfl, rfl, ?_, by decide, by decide, by decide⟩
  intro c
  simp only [jsonrpcErrorIsRetryable, jsonrpcIsServerError, internalErrorCode,
    serverErrorStart, serverErrorEnd, Bool.or_eq_true, decide_eq_true_eq]

/-- Witness for C4: status 503 and code -32000 classify retryable; status 404
and code -32602 do not. -/
theorem C4_classifier_exact_witness :
    isRetryable (.httpError 503) = true
    ∧ jsonrpcErrorIsRetryable (-32000) = true
    ∧ isRetryable (.httpError 404) ≠ true
    ∧ jsonrpcErrorIsRetryable (-32602) ≠ true := by
  refine ⟨(C4_classifier_exact.1 503).mpr (by decide),
    (C4_classifier_exact.2.2.2.2.2.1 (-32000)).mpr (by decide), ?_, ?_⟩
  · intro h
    have := (C4_classifier_exact.1 404).mp h
    omega
  · intro h
    have := (C4_classifier_exact.2.2.2.2.2.1 (-32602)).mp h
    omega

/-- C3 counterexample: a JSON-RPC response whose envelope carries error code
-32000 inside a successful HTTP exchange surfaces after exactly one attempt,
with no retry, although maxRetries = 3 remain available. -/
theorem C3_counterexample :
    rpcCall (fun _ => .resp 200) 3 (some (-32000)) =
      (Except.error (.rpcError (-32000)), 1) := by
  rfl

/-- C3 amended: a protocol error carried in a successful HTTP exchange is
never retried, whatever its code: for every maxRetries budget and every code
(-32602 and -32000 alike) the call performs exactly one attempt and fails
with that protocol error. -/
theorem C3_amended_no_protocol_retry :
    ∀ (maxRetries : Nat) (c : Int),
      rpcCall (fun _ => .resp 200) maxRetries (some c) =
        (Except.error (.rpcError c), 1) := by
  intro maxRetries c
  simp [rpcCall, post, clientDo, retrierDo, retrierGo, doStep]

/-- C5: for every zero-based attempt and nonnegative configuration, the
computed delay equals the capped exponential delay min(initialDelay *
multiplier^attempt, maxDelay) perturbed by delay * jitter * u with u in
[-1, 1] and clamped to ≥ 0; consequently it is never negative and never
exceeds maxDelay * (1 + jitter). -/
theorem C5_backoff_bounds (iDelay mDelay mult j u : ℚ) (n : Nat)
    (hInit : 0 ≤ iDelay) (hMax : 0 ≤ mDelay) (hMult : 0 ≤ mult)
    (hJ : 0 ≤ j) (hu1 : -1 ≤ u) (hu2 : u ≤ 1) :
    calculateDelay iDelay mDelay mult j n u =
      max 0 (min (iDelay * mult ^ n) mDelay
        + min (iDelay * mult ^ n) mDelay * j * u)
    ∧ 0 ≤ calculateDelay iDelay mDelay mult j n u
    ∧ calculateDelay iDelay mDelay mult j n u ≤ mDelay * (1 + j) := by
  have hb : (0 : ℚ) ≤ iDelay * mult ^ n := mul_nonneg hInit (pow_nonneg hMult n)
  have hcap : (if mDelay < iDelay * mult ^ n then mDelay else iDelay * mult ^ n)
      = min (iDelay * mult ^ n) mDelay := by
    rcases lt_or_ge mDelay (iDelay * mult ^ n) with h | h
    · rw [if_pos h, min_eq_right (le_of_lt h)]
    · rw [if_neg (not_lt.mpr h), min_eq_left h]
  set c := min (iDelay * mult ^ n) mDelay with hcdef
  have hc0 : (0 : ℚ) ≤ c := le_min hb hMax
  have hcm : c ≤ mDelay := min_le_right _ _
  have hjit : (if 0 < j then c + c * j * u else c) = c + c * j * u := by
    rcases eq_or_lt_of_le hJ with h0 | hpos
    · rw [if_neg (by rw [← h0]; exact lt_irrefl 0), ← h0]; ring
    · rw [if_pos hpos]
  have hval : calculateDelay iDelay mDelay mult j n u = max 0 (c + c * j * u) := by
    simp only [calculateDelay]
    rw [hcap, hjit]
    rcases lt_or_ge (c + c * j * u) 0 with h | h
    · rw [if_pos h, max_eq_left (le_of_lt h)]
    · rw [if_neg (not_lt.mpr h), max_eq_right h]
  refine ⟨hval, ?_, ?_⟩
  · rw [hval]; exact le_max_left _ _
  · rw [hval]
    have hju : j * u ≤ j := by
      calc j * u ≤ j * 1 := mul_le_mul_of_nonneg_left hu2 hJ
      _ = j := mul_one j
    have h1 : c + c * j * u ≤ mDelay * (1 + j) := by
      have hc1 : c * (1 + j * u) ≤ c * (1 + j) :=
        mul_le_mul_of_nonneg_left (by linarith) hc0
      have hc2 : c * (1 + j) ≤ mDelay * (1 + j) :=
        mul_le_mul_of_nonneg_right hcm (by linarith)
      nlinarith
    have h0 : (0 : ℚ) ≤ mDelay * (1 + j) := mul_nonneg hMax (by linarith)
    exact max_le h0 h1

/-- Witness for C5 at initialDelay 1, maxDelay 30, multiplier 2, jitter 1/10,
attempt 2, u = 1. -/
theorem C5_backoff_bounds_witness :
    calculateDelay 1 30 2 (1/10) 2 1 =
      max 0 (min ((1 : ℚ) * 2 ^ 2) 30 + min ((1 : ℚ) * 2 ^ 2) 30 * (1/10) * 1)
    ∧ 0 ≤ calculateDelay 1 30 2 (1/10) 2 1
    ∧ calculateDelay 1 30 2 (1/10) 2 1 ≤ 30 * (1 + 1/10) :=
  C5_backoff_bounds 1 30 2 (1/10) 1 2 (by norm_num) (by norm_num) (by norm_num)
    (by norm_num) (by norm_num) (by norm_num)

/-- The results loop preserves the number of slots. -/
theorem batchResultsAux_length (rs : List BatchCallResponse) :
    ∀ (cs : List BatchCallReq) (i0 : Nat),
      (batchResultsAux rs i0 cs).length = cs.length := by
  intro cs
  induction cs with
  | nil => intro i0; rfl
  | cons c cs ih => intro i0; simp [batchResultsAux, ih]

/-- Slot i of the results loop started at offset i0 is the processed slot for
input position i0 + i. -/
theorem batchResultsAux_getElem? (rs : List BatchCallResponse) :
    ∀ (cs : List BatchCallReq) (i0 i : Nat),
      (batchResultsAux rs i0 cs)[i]? =
        (cs[i]?).map (fun c => processBatchSlot rs (i0 + i) c) := by
  intro cs
  induction cs with
  | nil => intro i0 i; simp [batchResultsAux]
  | cons c cs ih =>
    intro i0 i
    cases i with
    | zero => simp [batchResultsAux]
    | succ i =>
      have harith : i0 + 1 + i = i0 + (i + 1) := by omega
      simp [batchResultsAux, ih (i0 + 1) i, harith]

/-- The ids assigned by the request-building loop started at offset i0 are
the consecutive integers i0+1, i0+2, ... -/
theorem buildBatchRequestsAux_ids :
    ∀ (cs : List BatchCallReq) (i0 : Nat),
      (buildBatchRequestsAux i0 cs).map Prod.snd = List.range' (i0 + 1) cs.length := by
  intro cs
  induction cs with
  | nil => intro i0; rfl
  | cons c cs ih =>
    intro i0
    simp [buildBatchRequestsAux, ih (i0 + 1), List.range'_succ]

/-- Entry i of the request-building loop started at offset i0 pairs input
entry i's method with id i0 + i + 1. -/
theorem buildBatchRequestsAux_getElem? :
    ∀ (cs : List BatchCallReq) (i0 i : Nat),
      (buildBatchRequestsAux i0 cs)[i]? =
        (cs[i]?).map (fun c => (c.method, i0 + i + 1)) := by
  intro cs
  induction cs with
  | nil => intro i0 i; simp [buildBatchRequestsAux]
  | cons c cs ih =>
    intro i0 i
    cases i with
    | zero => simp [buildBatchRequestsAux]
    | succ i =>
      have harith : i0 + 1 + i = i0 + (i + 1) := by omega
      simp [buildBatchRequestsAux, ih (i0 + 1) i, harith]

/-- No response envelope carries the id iff the map lookup misses. -/
theorem responseMapLookup_eq_none (rs : List BatchCallResponse) (i : Nat) :
    responseMapLookup rs i = none ↔ ∀ r ∈ rs, r.id ≠ i := by
  simp [responseMapLookup, List.find?_eq_none, List.mem_reverse]

/-- C1: a non-empty batch of N entries performs one POST whose requests carry
the sequential ids 1..N in input order; the result list has one slot per
input position, and slot i is determined by the id-(i+1) lookup in the
response map: a missing envelope yields the missing-response error for that
slot alone, an envelope with an error object yields that protocol error, and
an envelope with a result payload decodes into the slot's target — so the
result list preserves input order whatever the order of the response
envelopes. -/
theorem C1_batch_correlation (calls : List BatchCallReq)
    (rs : List BatchCallResponse) (hne : calls ≠ []) :
    batchCall calls (Except.ok rs) = (Except.ok (batchResults calls rs), 1)
    ∧ (buildBatchRequests calls).map Prod.snd = List.range' 1 calls.length
    ∧ (batchResults calls rs).length = calls.length
    ∧ (∀ i c, calls[i]? = some c →
        (buildBatchRequests calls)[i]? = some (c.method, i + 1)
        ∧ (batchResults calls rs)[i]? = some (processBatchSlot rs i c)
        ∧ ((∀ r ∈ rs, r.id ≠ i + 1) →
            processBatchSlot rs i c = { error := some (.missingResponse i) })
        ∧ (∀ resp, responseMapLookup rs (i + 1) = some resp →
            (∀ e, resp.error = some e →
              processBatchSlot rs i c = { error := some (.protocol e) })
            ∧ (∀ dec v, resp.error = none → c.target = some dec →
                resp.result ≠ "" → dec resp.result = some v →
                processBatchSlot rs i c = { result := some v }))) := by
  refine ⟨?_, buildBatchRequestsAux_ids calls 0, batchResultsAux_length rs calls 0, ?_⟩
  · match calls with
    | [] => exact absurd rfl hne
    | c :: cs => rfl
  · intro i c hc
    refine ⟨?_, ?_, ?_, ?_⟩
    · rw [buildBatchRequests, buildBatchRequestsAux_getElem? calls 0 i, hc]
      simp
    · rw [batchResults, batchResultsAux_getElem? rs calls 0 i, hc]
      simp
    · intro habsent
      rw [processBatchSlot, (responseMapLookup_eq_none rs (i + 1)).mpr habsent]
    · intro resp hresp
      constructor
      · intro e he
        simp [processBatchSlot, hresp, he]
      · intro dec v herr htgt hne2 hdec
        simp [processBatchSlot, hresp, herr, htgt, hne2, hdec]

/-- Witness for C1 on the worked example: inputs [A, B, C] with responses
for ids 1 and 3 only, delivered out of order; slot 0 decodes A's result,
slot 1 is the missing-response error, slot 2 decodes C's result. -/
theorem C1_batch_correlation_witness :
    batchCall exCalls (Except.ok exRs) = (Except.ok (batchResults exCalls exRs), 1)
    ∧ processBatchSlot exRs 1 { method := "mB", target := some idDecode } =
        { error := some (.missingResponse 1) }
    ∧ batchResults exCalls exRs =
        [{ result := some "rA" }, { error := some (.missingResponse 1) },
          { result := some "rC" }] := by
  have h := C1_batch_correlation exCalls exRs (List.cons_ne_nil _ _)
  refine ⟨h.1, ?_, by rfl⟩
  exact ((h.2.2.2 1 { method := "mB", target := some idDecode } rfl).2.2.1) (by decide)

/-- C9: a batch call with an empty input list returns an empty result list
with no error and performs no POST, whatever the network would have
answered. -/
theorem C9_empty_batch (postResult : Except AErr (List BatchCallResponse)) :
    batchCall [] postResult = (Except.ok [], 0) := rfl

/-- C10: a batch slot whose matched envelope has no error object and an empty
result payload, or whose caller supplied no decode target, ends up with
neither an error nor a result — the zero-valued slot. -/
theorem C10_silent_empty_slot (calls : List BatchCallReq)
    (rs : List BatchCallResponse) (i : Nat) (c : BatchCallReq)
    (resp : BatchCallResponse) (hc : calls[i]? = some c)
    (hl : responseMapLookup rs (i + 1) = some resp)
    (he : resp.error = none)
    (hempty : c.target = none ∨ resp.result = "") :
    (batchResults calls rs)[i]? = some ({} : BatchResult) := by
  rw [batchResults, batchResultsAux_getElem? rs calls 0 i, hc]
  have hslot : processBatchSlot rs i c = {} := by
    rcases hempty with h | h
    · simp [processBatchSlot, hl, he, h]
    · cases htgt : c.target with
      | none => simp [processBatchSlot, hl, he, htgt]
      | some dec => simp [processBatchSlot, hl, he, htgt, h]
  simp [hslot]

/-- Witness for C10: a single call with no decode target matched by an
envelope that carries neither error nor result payload yields the
zero-valued slot. -/
theorem C10_silent_empty_slot_witness :
    (batchResults [{ method := "mD" }] [{ id := 1 }])[0]? =
      some ({} : BatchResult) :=
  C10_silent_empty_slot [{ method := "mD" }] [{ id := 1 }] 0 { method := "mD" }
    { id := 1 } rfl rfl rfl (Or.inl rfl)

/-- One Next step on a current page performs at most one further fetch. -/
theorem nextWithCurrent_fetches (fetch : String → Except AErr AssetTransfersResponse)
    (it : AssetTransfersIterator) (r : AssetTransfersResponse) (n : Nat) :
    (nextWithCurrent fetch it r n).2.2 = n ∨ (nextWithCurrent fetch it r n).2.2 = n + 1 := by
  unfold nextWithCurrent
  split_ifs with h1 h2
  · exact Or.inl rfl
  · cases hf : fetch r.pageKey with
    | error e => simp
    | ok r2 =>
      cases htr : r2.transfers with
      | nil => simp [htr]
      | cons x xs => simp [htr]
  · exact Or.inl rfl

/-- C6: the worked two-page pagination run collects [a, b, c] in order with
exactly two fetches; in general, a current page consumed to its end with an
empty next cursor ends the iteration with the done flag and no fetch, and a
page fetched through a non-empty cursor that comes back empty ends the
iteration as end-of-data (nil item, nil error) after that single fetch. -/
theorem C6_pagination_termination :
    collect exFetch 10 {} = some (Except.ok ["a", "b", "c"], 2)
    ∧ (∀ fetch pk r idx, r.transfers.length ≤ idx → hasMore r = false →
        next fetch { paramsPageKey := pk, current := some r, index := idx } =
          (Except.ok none,
            { paramsPageKey := pk, current := some r, index := idx, done := true }, 0))
    ∧ (∀ fetch pk r idx pk2, r.transfers.length ≤ idx → hasMore r = true →
        fetch r.pageKey = Except.ok { pageKey := pk2, transfers := [] } →
        next fetch { paramsPageKey := pk, current := some r, index := idx } =
          (Except.ok none,
            { paramsPageKey := r.pageKey,
              current := some { pageKey := pk2, transfers := [] },
              index := 0, done := true }, 1)) := by
  refine ⟨by rfl, ?_, ?_⟩
  · intro fetch pk r idx hidx hmore
    simp [next, nextWithCurrent, hmore, not_lt.mpr hidx]
  · intro fetch pk r idx pk2 hidx hmore hfetch
    simp [next, nextWithCurrent, hmore, hfetch, not_lt.mpr hidx]

/-- Witness for C6 on concrete iterators: an exhausted page with empty cursor
ends with done and zero fetches; an exhausted page whose cursor "k3" fetches
an empty page ends with done after one fetch. -/
theorem C6_pagination_termination_witness :
    next exFetch { paramsPageKey := "", current := some { pageKey := "", transfers := ["x"] }, index := 1 } =
      (Except.ok none, { paramsPageKey := "", current := some { pageKey := "", transfers := ["x"] }, index := 1, done := true }, 0)
    ∧ next (fun _ => Except.ok {}) { paramsPageKey := "", current := some { pageKey := "k3", transfers := ["x"] }, index := 1 } =
      (Except.ok none, { paramsPageKey := "k3", current := some ({} : AssetTransfersResponse), index := 0, done := true }, 1) :=
  ⟨C6_pagination_termination.2.1 exFetch "" { pageKey := "", transfers := ["x"] } 1
      (by decide) rfl,
   C6_pagination_termination.2.2 (fun _ => Except.ok {}) ""
      { pageKey := "k3", transfers := ["x"] } 1 "" (by decide) rfl rfl⟩

/-- C7: a stored error is returned unchanged by every further Next call with
no fetch and no state change; Reset clears page, index, done flag, error and
the page-key cursor, restoring the pre-first-fetch state, after which the
next Next call fetches again (at least one fetch, with the empty cursor of
page 1). -/
theorem C7_error_sticky_reset :
    (∀ fetch it e, it.err = some e → next fetch it = (Except.error e, it, 0))
    ∧ (∀ it, reset it = ({} : AssetTransfersIterator))
    ∧ (∀ fetch it, 1 ≤ (next fetch (reset it)).2.2) := by
  refine ⟨?_, ?_, ?_⟩
  · intro fetch it e he
    rw [next, he]
  · intro it; rfl
  · intro fetch it
    show 1 ≤ (next fetch {}).2.2
    rw [next]
    cases hf : fetch ({} : AssetTransfersIterator).paramsPageKey with
    | error e => simp [hf]
    | ok r =>
      simp only [hf]
      rcases nextWithCurrent_fetches fetch
        { ({} : AssetTransfersIterator) with current := some r, index := 0 } r 1 with h | h
      · simp [h]
      · simp [h]

/-- Witness for C7: a concrete errored iterator keeps returning its stored
error without fetching, and Reset returns it to the fresh state. -/
theorem C7_error_sticky_reset_witness :
    next exFetch { paramsPageKey := "k2", err := some .otherErr } =
      (Except.error .otherErr, { paramsPageKey := "k2", err := some .otherErr }, 0)
    ∧ reset { paramsPageKey := "k2", err := some AErr.otherErr } =
      ({} : AssetTransfersIterator) :=
  ⟨C7_error_sticky_reset.1 exFetch { paramsPageKey := "k2", err := some .otherErr }
      .otherErr rfl,
   C7_error_sticky_reset.2.1 { paramsPageKey := "k2", err := some AErr.otherErr }⟩

/-- C8 counterexample: on a freshly constructed iterator the first HasNext
call performs no fetch and leaves the iterator still without a first page,
so the first page is not fetched on the first next-or-hasNext call when
hasNext comes first. -/
theorem C8_counterexample :
    hasNext exFetch ({} : AssetTransfersIterator) =
      (true, ({} : AssetTransfersIterator), 0)
    ∧ ({} : AssetTransfersIterator).current = none := ⟨rfl, rfl⟩

/-- C8 amended: construction performs no fetch (a fresh iterator holds no
page); HasNext never fetches and never changes the state, reporting true
before the first fetch; the first page is fetched lazily on the first Next
call (which performs at least one fetch). -/
theorem C8_lazy_first_fetch :
    ({} : AssetTransfersIterator).current = none
    ∧ (∀ fetch it, (hasNext fetch it).2.1 = it ∧ (hasNext fetch it).2.2 = 0)
    ∧ (∀ fetch, hasNext fetch ({} : AssetTransfersIterator) =
        (true, ({} : AssetTransfersIterator), 0))
    ∧ (∀ fetch, 1 ≤ (next fetch ({} : AssetTransfersIterator)).2.2) := by
  refine ⟨rfl, ?_, ?_, ?_⟩
  · intro fetch it
    rw [hasNext]
    split_ifs with h
    · exact ⟨rfl, rfl⟩
    · cases hcur : it.current with
      | none => exact ⟨rfl, rfl⟩
      | some r =>
        dsimp only
        split_ifs with h2
        · exact ⟨rfl, rfl⟩
        · exact ⟨rfl, rfl⟩
  · intro fetch; rfl
  · intro fetch
    rw [next]
    cases hf : fetch ({} : AssetTransfersIterator).paramsPageKey with
    | error e => simp [hf]
    | ok r =>
      simp only [hf]
      rcases nextWithCurrent_fetches fetch
        { ({} : AssetTransfersIterator) with current := some r, index := 0 } r 1 with h | h
      · simp [h]
      · simp [h]

end Alchemy
